import Mathlib

/-
Verification of the remediation engine of misconfig-auto-remediator
(src/main.py) against its natural-language specification.

The configuration document is modelled as a tree of JSON/YAML-style
values (the spec's data model, section 3: mappings with string keys,
sequences, scalars).  Python dictionaries are modelled as ordered
association lists with in-place update, matching CPython dict
semantics for the operations the source uses (`in`, indexing,
assignment).  Every exception path of the source is modelled as an
explicit outcome, since `remediate_misconfiguration` wraps its whole
body in `try ... except Exception` (src/main.py lines 87-121).
-/

namespace Remed

/-- A configuration document node: scalars (null, booleans, numbers,
strings), sequences, and mappings with string keys.  Numbers are
modelled as integers; no claim concerns floating point. -/
inductive Value where
  | null : Value
  | bool (b : Bool) : Value
  | num (n : Int) : Value
  | str (s : String) : Value
  | arr (xs : List Value) : Value
  | obj (kvs : List (String × Value)) : Value

/-- Python dict lookup `d.get(k)` / `d[k]` on an association list:
first entry with the given key. -/
def lookup : List (String × Value) → String → Option Value
  | [], _ => none
  | (k', v) :: rest, k => if k' = k then some v else lookup rest k

/-- Python dict assignment `d[k] = v`: replace the value of an
existing key in place (keeping its position), or append a new entry.
The source only assigns to keys it has already tested with `in`. -/
def setKey : List (String × Value) → String → Value → List (String × Value)
  | [], k, v => [(k, v)]
  | (k', v') :: rest, k, v =>
    if k' = k then (k', v) :: rest else (k', v') :: setKey rest k v

/-- Python truthiness of a document value, as used by the guard
`if not path or not suggested_value:` at src/main.py line 95:
None, False, 0, "", [] and {} are falsy. -/
def truthy : Value → Bool
  | .null => false
  | .bool b => b
  | .num n => n != 0
  | .str s => s != ""
  | .arr xs => !xs.isEmpty
  | .obj kvs => !kvs.isEmpty

/-- Whether the first character list is a leading segment of the
second (helper for the Python substring test). -/
def leadsList : List Char → List Char → Bool
  | [], _ => true
  | _ :: _, [] => false
  | a :: as, b :: bs => a == b && leadsList as bs

/-- Whether the first character list occurs contiguously inside the
second.  This is Python's `pat in s` for strings. -/
def occursIn : List Char → List Char → Bool
  | pat, [] => pat.isEmpty
  | pat, c :: t => leadsList pat (c :: t) || occursIn pat t

/-- Python's `seg in s` on strings: contiguous substring test. -/
def pyInStr (seg s : String) : Bool :=
  occursIn seg.data s.data

/-- Python's `seg in xs` on lists, where `seg` is a string: membership
by equality.  A string compares equal only to an equal string. -/
def pyInList (seg : String) : List Value → Bool
  | [] => false
  | .str t :: rest => if t = seg then true else pyInList seg rest
  | _ :: rest => pyInList seg rest

/-- Accumulator-style worker for `pySplitDot`. -/
def splitAux : List Char → List Char → List String
  | [], acc => [String.mk acc.reverse]
  | c :: rest, acc =>
    if c = '.' then String.mk acc.reverse :: splitAux rest []
    else splitAux rest (c :: acc)

/-- Python's `path.split(".")` (src/main.py line 100): always returns
at least one segment; `""` yields `[""]` and `"a..b"` yields
`["a", "", "b"]`. -/
def pySplitDot (s : String) : List String :=
  splitAux s.data []

/-- Per-finding result of `remediate_misconfiguration`, read off from
its logging branches: `applied` is the info line plus assignment at
lines 113-114, `skippedMissingFields` the warning at line 96,
`skippedPathNotFound` the warnings at lines 107 and 116, and
`errorCaught` the catch-all error at line 121 (for example the
TypeError raised by indexing a string or list with a string key). -/
inductive Outcome where
  | applied (old new : Value) : Outcome
  | skippedMissingFields : Outcome
  | skippedPathNotFound : Outcome
  | errorCaught : Outcome

/-- The traversal-and-assignment loop of `remediate_misconfiguration`
(src/main.py lines 100-117) on a nonempty segment list.  For each
segment before the last, `parts[i] in current` is tested and the
traversal descends; on the last segment the value is assigned.
Python's `in` on a non-mapping behaves as follows: on strings it is
the substring test, on lists element membership, and on other scalars
it raises TypeError; indexing a string or list with a string key
raises TypeError.  All raised errors are caught by the enclosing
`except` and so become `errorCaught` with the document unchanged. -/
def walk (sv : Value) : Value → List String → Value × Outcome
  | cur, [] => (cur, .errorCaught)
  | .obj kvs, [seg] =>
    match lookup kvs seg with
    | some old => (.obj (setKey kvs seg sv), .applied old sv)
    | none => (.obj kvs, .skippedPathNotFound)
  | .obj kvs, seg :: r1 :: rs =>
    match lookup kvs seg with
    | some next =>
      (.obj (setKey kvs seg (walk sv next (r1 :: rs)).1), (walk sv next (r1 :: rs)).2)
    | none => (.obj kvs, .skippedPathNotFound)
  | .str s, seg :: _ =>
    if pyInStr seg s then (.str s, .errorCaught) else (.str s, .skippedPathNotFound)
  | .arr xs, seg :: _ =>
    if pyInList seg xs then (.arr xs, .errorCaught) else (.arr xs, .skippedPathNotFound)
  | cur, _ :: _ => (cur, .errorCaught)

/-- The function `remediate_misconfiguration(config, misconfiguration)`
of src/main.py lines 66-123, with the outcome made explicit.  The
finding is an arbitrary value: calling `.get` on a non-mapping raises
AttributeError (caught: `errorCaught`); the guard at line 95 is
Python truthiness; `path.split(".")` on a truthy non-string raises
AttributeError (caught).  The document is returned mutated in place
exactly as by the source. -/
def remediate_misconfiguration (config misconfiguration : Value) : Value × Outcome :=
  match misconfiguration with
  | .obj m =>
    if truthy ((lookup m "path").getD .null) && truthy ((lookup m "suggested_value").getD .null) then
      match (lookup m "path").getD .null with
      | .str p => walk ((lookup m "suggested_value").getD .null) config (pySplitDot p)
      | _ => (config, .errorCaught)
    else (config, .skippedMissingFields)
  | _ => (config, .errorCaught)

/-- The remediation loop of `main` (src/main.py lines 181-182):
findings are processed in report order, the document is threaded
through, and one outcome per finding is collected in order. -/
def remediateAll : Value → List Value → Value × List Outcome
  | d, [] => (d, [])
  | d, f :: fs =>
    ((remediateAll (remediate_misconfiguration d f).1 fs).1,
      (remediate_misconfiguration d f).2 :: (remediateAll (remediate_misconfiguration d f).1 fs).2)

/-- Read-only resolution of a segment list: descends through mappings
only, returning the value at the full path.  `lookupPath d parts =
some v` states exactly that the source's traversal of `parts` on `d`
succeeds with leaf value `v`. -/
def lookupPath : Value → List String → Option Value
  | d, [] => some d
  | .obj kvs, k :: rest =>
    match lookup kvs k with
    | some c => lookupPath c rest
    | none => none
  | _, _ :: _ => none

/-- The single-leaf assignment along a resolving path: rebinds the
final segment's key in its parent mapping and rebuilds the spine,
touching nothing else.  Used to characterise what the source's
successful traversal does to the document. -/
def setPath : Value → List String → Value → Value
  | d, [], _ => d
  | .obj kvs, [k], v => .obj (setKey kvs k v)
  | .obj kvs, k :: rest, v =>
    match lookup kvs k with
    | some c => .obj (setKey kvs k (setPath c rest v))
    | none => .obj kvs
  | d, _ :: _, _ => d

/-- The mapping-shaped resolution failures: some segment, walked
through mappings, is absent from the mapping reached at that point
(an intermediate key missing from a mapping, or the final key absent
from the final mapping). -/
def pathMissing : Value → List String → Bool
  | _, [] => false
  | .obj kvs, [k] => (lookup kvs k).isNone
  | .obj kvs, k :: rest =>
    match lookup kvs k with
    | some c => pathMissing c rest
    | none => true
  | _, _ :: _ => false

/-- Whether the first segment list is a leading portion of the second
(used to state the frame property of a successful application). -/
def isPre : List String → List String → Bool
  | [], _ => true
  | _ :: _, [] => false
  | a :: as, b :: bs => if a = b then isPre as bs else false

/-- Whether an outcome is a successful application. -/
def isApplied : Outcome → Bool
  | .applied _ _ => true
  | _ => false

/-- The outcome a finding produces when re-applied to an already
remediated document: a previous application becomes a no-op change. -/
def secondPass : Outcome → Outcome
  | .applied _ v => .applied v v
  | o => o

/-- Field access on a finding value: `f.get(k)` when `f` is a
mapping, and nothing otherwise. -/
def vget : Value → String → Option Value
  | .obj kvs, k => lookup kvs k
  | _, _ => none

/-- Serialization format recorded at load time (src/main.py lines
35 and 40). -/
inductive FormatTag where
  | yaml : FormatTag
  | json : FormatTag

/-- Run-level failure of `load_config`: the text is accepted by
neither parser (the ValueError at src/main.py line 42). -/
inductive ErrorKind where
  | unsupportedFormat : ErrorKind

/-- The function `load_config` of src/main.py lines 27-46, abstracted
over the two external parsers: YAML is attempted first; on YAML
failure the text is re-read and JSON is attempted; if both fail the
result is the unsupported-format error. -/
def load_config (yamlParse jsonParse : String → Option Value) (text : String) :
    Except ErrorKind (Value × FormatTag) :=
  match yamlParse text with
  | some v => .ok (v, .yaml)
  | none =>
    match jsonParse text with
    | some v => .ok (v, .json)
    | none => .error .unsupportedFormat

/-- Whether a node is a mapping. -/
def Value.isObj : Value → Bool
  | .obj _ => true
  | _ => false

/-- The spec's first concrete scenario document,
`{"security": {"password_policy": {"minimum_length": 4}}}`. -/
def secDoc : Value :=
  .obj [("security", .obj [("password_policy", .obj [("minimum_length", .num 4)])])]

/-- The spec's first concrete scenario after remediation,
`{"security": {"password_policy": {"minimum_length": 12}}}`. -/
def secDoc12 : Value :=
  .obj [("security", .obj [("password_policy", .obj [("minimum_length", .num 12)])])]

/-- The spec's first concrete scenario finding,
`{"path": "security.password_policy.minimum_length", "suggested_value": 12}`. -/
def minLenFinding : Value :=
  .obj [("path", .str "security.password_policy.minimum_length"), ("suggested_value", .num 12)]

/-- The spec's missing-leaf scenario finding,
`{"path": "security.password_policy.max_age", "suggested_value": 90}`. -/
def maxAgeFinding : Value :=
  .obj [("path", .str "security.password_policy.max_age"), ("suggested_value", .num 90)]

/-- Document `{"a": {"b": 1}}`, used to test re-application of a
finding list. -/
def c2Doc : Value :=
  .obj [("a", .obj [("b", .num 1)])]

/-- A finding list whose second finding overwrites the container that
the first finding's path traverses: first set `a.b` to 9, then set
`a` itself to the scalar 7. -/
def c2Findings : List Value :=
  [.obj [("path", .str "a.b"), ("suggested_value", .num 9)],
   .obj [("path", .str "a"), ("suggested_value", .num 7)]]

/-- Document `{"a": 1}`. -/
def aOneDoc : Value :=
  .obj [("a", .num 1)]

/-- Finding `{"path": "a", "suggested_value": 2}`. -/
def aTwoFinding : Value :=
  .obj [("path", .str "a"), ("suggested_value", .num 2)]

/-- Document `{"a": {"b": 1}, "c": 2}`, used to exhibit the frame
property of a successful application at path `a.b`. -/
def frameDoc : Value :=
  .obj [("a", .obj [("b", .num 1)]), ("c", .num 2)]

/-- Looking up the key just set yields the new value. -/
theorem lookup_setKey_self (kvs : List (String × Value)) (k : String) (v : Value) :
    lookup (setKey kvs k v) k = some v := by
  induction kvs with
  | nil => simp [setKey, lookup]
  | cons h t ih =>
    obtain ⟨k', v'⟩ := h
    by_cases hk : k' = k
    · simp [setKey, hk, lookup]
    · simp [setKey, hk, lookup, ih]

/-- Setting one key leaves the lookup of any other key unchanged. -/
theorem lookup_setKey_other (kvs : List (String × Value)) (k k0 : String) (v : Value)
    (h : k0 ≠ k) : lookup (setKey kvs k v) k0 = lookup kvs k0 := by
  induction kvs with
  | nil => simp [setKey, lookup, Ne.symm h]
  | cons hd t ih =>
    obtain ⟨k', v'⟩ := hd
    by_cases hk : k' = k
    · subst hk
      simp [setKey, lookup, Ne.symm h]
    · by_cases hk0 : k' = k0
      · simp [setKey, hk, lookup, hk0, h]
      · simp [setKey, hk, lookup, hk0, ih]

/-- Re-setting a key to the value it already holds is the identity. -/
theorem setKey_lookup_eq (kvs : List (String × Value)) (k : String) (v : Value)
    (h : lookup kvs k = some v) : setKey kvs k v = kvs := by
  induction kvs with
  | nil => simp [lookup] at h
  | cons hd t ih =>
    obtain ⟨k', v'⟩ := hd
    by_cases hk : k' = k
    · simp [lookup, hk] at h
      simp [setKey, hk, h]
    · simp [lookup, hk] at h
      simp [setKey, hk, ih h]

/-- Setting the same key twice keeps only the last value. -/
theorem setKey_setKey (kvs : List (String × Value)) (k : String) (v w : Value) :
    setKey (setKey kvs k v) k w = setKey kvs k w := by
  induction kvs with
  | nil => simp [setKey]
  | cons hd t ih =>
    obtain ⟨k', v'⟩ := hd
    by_cases hk : k' = k
    · simp [setKey, hk]
    · simp [setKey, hk, ih]

/-- Setting a key that is already present preserves the key list. -/
theorem keys_setKey (kvs : List (String × Value)) (k : String) (v w : Value)
    (h : lookup kvs k = some w) :
    (setKey kvs k v).map Prod.fst = kvs.map Prod.fst := by
  induction kvs with
  | nil => simp [lookup] at h
  | cons hd t ih =>
    obtain ⟨k', v'⟩ := hd
    by_cases hk : k' = k
    · simp [setKey, hk]
    · simp [lookup, hk] at h
      simp [setKey, hk, ih h]

/-- The split worker never returns an empty list. -/
theorem splitAux_ne_nil (l acc : List Char) : splitAux l acc ≠ [] := by
  induction l generalizing acc with
  | nil => simp [splitAux]
  | cons c t ih =>
    by_cases hc : c = '.'
    · simp [splitAux, hc]
    · simp [splitAux, hc, ih]

/-- Python's `split` always yields at least one segment. -/
theorem pySplitDot_ne_nil (s : String) : pySplitDot s ≠ [] :=
  splitAux_ne_nil s.data []

/-- Whenever the traversal does not apply an assignment, the document
is returned unchanged. -/
theorem walk_not_applied (sv : Value) (parts : List String) (cur : Value)
    (h : isApplied (walk sv cur parts).2 = false) : (walk sv cur parts).1 = cur := by
  induction parts generalizing cur with
  | nil => simp [walk]
  | cons seg rest ih =>
    cases rest with
    | nil =>
      cases cur with
      | obj kvs =>
        cases hlk : lookup kvs seg with
        | some old => simp [walk, hlk, isApplied] at h
        | none => simp [walk, hlk]
      | str s => cases hp : pyInStr seg s <;> simp [walk, hp]
      | arr xs => cases hp : pyInList seg xs <;> simp [walk, hp]
      | null => simp [walk]
      | bool b => simp [walk]
      | num n => simp [walk]
    | cons r1 rs =>
      cases cur with
      | obj kvs =>
        cases hlk : lookup kvs seg with
        | some next =>
          simp only [walk, hlk] at h ⊢
          rw [ih next h, setKey_lookup_eq kvs seg next hlk]
        | none => simp [walk, hlk]
      | str s => cases hp : pyInStr seg s <;> simp [walk, hp]
      | arr xs => cases hp : pyInList seg xs <;> simp [walk, hp]
      | null => simp [walk]
      | bool b => simp [walk]
      | num n => simp [walk]

/-- An applied traversal assigns the suggested value, resolves the
path to the old value, and rewrites the document as the single-leaf
assignment `setPath`. -/
theorem walk_applied (sv : Value) (parts : List String) (cur d' old nv : Value)
    (h : walk sv cur parts = (d', .applied old nv)) :
    nv = sv ∧ lookupPath cur parts = some old ∧ d' = setPath cur parts sv := by
  induction parts generalizing cur d' with
  | nil => simp [walk] at h
  | cons seg rest ih =>
    cases rest with
    | nil =>
      cases cur with
      | obj kvs =>
        cases hlk : lookup kvs seg with
        | some w =>
          simp only [walk, hlk] at h
          obtain ⟨h1, h2⟩ := Prod.mk.injEq .. ▸ h
          cases h2
          exact ⟨rfl, by simp [lookupPath, hlk], by simp [setPath, h1.symm]⟩
        | none => simp [walk, hlk] at h
      | str s => cases hp : pyInStr seg s <;> simp [walk, hp] at h
      | arr xs => cases hp : pyInList seg xs <;> simp [walk, hp] at h
      | null => simp [walk] at h
      | bool b => simp [walk] at h
      | num n => simp [walk] at h
    | cons r1 rs =>
      cases cur with
      | obj kvs =>
        cases hlk : lookup kvs seg with
        | some next =>
          simp only [walk, hlk] at h
          obtain ⟨h1, h2⟩ := Prod.mk.injEq .. ▸ h
          obtain ⟨hnv, hres, hset⟩ := ih next (walk sv next (r1 :: rs)).1 (Prod.ext rfl h2)
          refine ⟨hnv, by simp [lookupPath, hlk, hres], ?_⟩
          simp [setPath, hlk, ← hset, h1.symm]
        | none => simp [walk, hlk] at h
      | str s => cases hp : pyInStr seg s <;> simp [walk, hp] at h
      | arr xs => cases hp : pyInList seg xs <;> simp [walk, hp] at h
      | null => simp [walk] at h
      | bool b => simp [walk] at h
      | num n => simp [walk] at h

/-- Conversely, a path that resolves is always applied, and the
document becomes the single-leaf assignment. -/
theorem walk_of_resolves (sv : Value) (parts : List String) (cur old : Value)
    (hne : parts ≠ []) (h : lookupPath cur parts = some old) :
    walk sv cur parts = (setPath cur parts sv, .applied old sv) := by
  induction parts generalizing cur with
  | nil => exact absurd rfl hne
  | cons seg rest ih =>
    cases rest with
    | nil =>
      cases cur with
      | obj kvs =>
        cases hlk : lookup kvs seg with
        | some w =>
          simp [lookupPath, hlk] at h
          simp [walk, hlk, setPath, h]
        | none => simp [lookupPath, hlk] at h
      | str s => simp [lookupPath] at h
      | arr xs => simp [lookupPath] at h
      | null => simp [lookupPath] at h
      | bool b => simp [lookupPath] at h
      | num n => simp [lookupPath] at h
    | cons r1 rs =>
      cases cur with
      | obj kvs =>
        cases hlk : lookup kvs seg with
        | some next =>
          simp only [lookupPath, hlk] at h
          have := ih next (by simp) h
          simp [walk, hlk, this, setPath]
        | none => simp [lookupPath, hlk] at h
      | str s => simp [lookupPath] at h
      | arr xs => simp [lookupPath] at h
      | null => simp [lookupPath] at h
      | bool b => simp [lookupPath] at h
      | num n => simp [lookupPath] at h

/-- After a single-leaf assignment along a resolving path, the path
resolves to the assigned value. -/
theorem lookupPath_setPath (sv : Value) (parts : List String) (cur old : Value)
    (hne : parts ≠ []) (h : lookupPath cur parts = some old) :
    lookupPath (setPath cur parts sv) parts = some sv := by
  induction parts generalizing cur with
  | nil => exact absurd rfl hne
  | cons seg rest ih =>
    cases rest with
    | nil =>
      cases cur with
      | obj kvs =>
        cases hlk : lookup kvs seg with
        | some w => simp [setPath, lookupPath, lookup_setKey_self]
        | none => simp [lookupPath, hlk] at h
      | str s => simp [lookupPath] at h
      | arr xs => simp [lookupPath] at h
      | null => simp [lookupPath] at h
      | bool b => simp [lookupPath] at h
      | num n => simp [lookupPath] at h
    | cons r1 rs =>
      cases cur with
      | obj kvs =>
        cases hlk : lookup kvs seg with
        | some next =>
          simp only [lookupPath, hlk] at h
          simp [setPath, hlk, lookupPath, lookup_setKey_self, ih next (by simp) h]
        | none => simp [lookupPath, hlk] at h
      | str s => simp [lookupPath] at h
      | arr xs => simp [lookupPath] at h
      | null => simp [lookupPath] at h
      | bool b => simp [lookupPath] at h
      | num n => simp [lookupPath] at h

/-- Two single-leaf assignments along the same path collapse to the
last one. -/
theorem setPath_setPath (parts : List String) (cur v w : Value) :
    setPath (setPath cur parts v) parts w = setPath cur parts w := by
  induction parts generalizing cur with
  | nil => simp [setPath]
  | cons seg rest ih =>
    cases rest with
    | nil =>
      cases cur with
      | obj kvs => simp [setPath, setKey_setKey]
      | str s => simp [setPath]
      | arr xs => simp [setPath]
      | null => simp [setPath]
      | bool b => simp [setPath]
      | num n => simp [setPath]
    | cons r1 rs =>
      cases cur with
      | obj kvs =>
        cases hlk : lookup kvs seg with
        | some next =>
          simp [setPath, hlk, lookup_setKey_self, setKey_setKey, ih]
        | none => simp [setPath, hlk]
      | str s => simp [setPath]
      | arr xs => simp [setPath]
      | null => simp [setPath]
      | bool b => simp [setPath]
      | num n => simp [setPath]

/-- A single-leaf assignment does not change resolution along any
path that neither extends nor is an initial portion of the assigned
path. -/
theorem setPath_frame (parts q : List String) (d sv : Value)
    (h1 : isPre parts q = false) (h2 : isPre q parts = false) :
    lookupPath (setPath d parts sv) q = lookupPath d q := by
  induction parts generalizing q d with
  | nil => simp [isPre] at h1
  | cons seg ps ih =>
    cases q with
    | nil => simp [isPre] at h2
    | cons k0 qs =>
      cases d with
      | obj kvs =>
        by_cases hk : k0 = seg
        · subst hk
          simp only [isPre, if_pos rfl] at h1 h2
          cases ps with
          | nil => simp [isPre] at h1
          | cons p1 ps' =>
            cases hlk : lookup kvs k0 with
            | some c =>
              simp [setPath, hlk, lookupPath, lookup_setKey_self, ih qs c h1 h2]
            | none => simp [setPath, hlk]
        · have hk' : ¬ seg = k0 := fun hh => hk hh.symm
          cases ps with
          | nil =>
            simp [setPath, lookupPath, lookup_setKey_other kvs seg k0 sv hk]
          | cons p1 ps' =>
            cases hlk : lookup kvs seg with
            | some c =>
              simp [setPath, hlk, lookupPath,
                lookup_setKey_other kvs seg k0 (setPath c (p1 :: ps') sv) hk]
            | none => simp [setPath, hlk]
      | str s => simp [setPath]
      | arr xs => simp [setPath]
      | null => simp [setPath]
      | bool b => simp [setPath]
      | num n => simp [setPath]

/-- Along a resolving path, a single-leaf assignment keeps every
strictly earlier node a mapping with an unchanged key list: no key or
container is ever created or removed anywhere on the spine. -/
theorem setPath_keys (q parts : List String) (d sv old : Value)
    (hres : lookupPath d parts = some old) (hpre : isPre q parts = true)
    (hne : q ≠ parts) :
    ∃ kvs kvs2, lookupPath d q = some (.obj kvs) ∧
      lookupPath (setPath d parts sv) q = some (.obj kvs2) ∧
      kvs2.map Prod.fst = kvs.map Prod.fst := by
  induction q generalizing parts d with
  | nil =>
    cases parts with
    | nil => exact absurd rfl hne
    | cons seg ps =>
      cases d with
      | obj kvs =>
        cases hlk : lookup kvs seg with
        | some c =>
          cases ps with
          | nil =>
            simp only [lookupPath, hlk] at hres
            exact ⟨kvs, setKey kvs seg sv, rfl, rfl,
              keys_setKey kvs seg sv c (hres ▸ hlk)⟩
          | cons p1 ps' =>
            exact ⟨kvs, setKey kvs seg (setPath c (p1 :: ps') sv), rfl,
              by simp [setPath, hlk, lookupPath], keys_setKey kvs seg _ c hlk⟩
        | none =>
          cases ps with
          | nil => simp [lookupPath, hlk] at hres
          | cons p1 ps' => simp [lookupPath, hlk] at hres
      | str s => simp [lookupPath] at hres
      | arr xs => simp [lookupPath] at hres
      | null => simp [lookupPath] at hres
      | bool b => simp [lookupPath] at hres
      | num n => simp [lookupPath] at hres
  | cons k0 qs ih =>
    cases parts with
    | nil => simp [isPre] at hpre
    | cons seg ps =>
      by_cases hk : k0 = seg
      · subst hk
        simp only [isPre, if_pos rfl] at hpre
        cases d with
        | obj kvs =>
          cases hlk : lookup kvs k0 with
          | some c =>
            cases ps with
            | nil =>
              cases qs with
              | nil => exact absurd rfl hne
              | cons q1 qs' => simp [isPre] at hpre
            | cons p1 ps' =>
              simp only [lookupPath, hlk] at hres
              have hne' : qs ≠ p1 :: ps' := fun hh => hne (by rw [hh])
              obtain ⟨kvs1, kvs2, ha, hb, hc⟩ := ih (p1 :: ps') c hres hpre hne'
              exact ⟨kvs1, kvs2, by simp [lookupPath, hlk, ha],
                by simp [setPath, hlk, lookupPath, lookup_setKey_self, hb], hc⟩
          | none =>
            cases ps with
            | nil => simp [lookupPath, hlk] at hres
            | cons p1 ps' => simp [lookupPath, hlk] at hres
        | str s => simp [lookupPath] at hres
        | arr xs => simp [lookupPath] at hres
        | null => simp [lookupPath] at hres
        | bool b => simp [lookupPath] at hres
        | num n => simp [lookupPath] at hres
      · simp [isPre, hk] at hpre

/-- Applying one finding twice: the second application returns the
same document, and the outcome is the no-op version of the first. -/
theorem remediate_idem (d f : Value) :
    remediate_misconfiguration (remediate_misconfiguration d f).1 f
      = ((remediate_misconfiguration d f).1,
         secondPass (remediate_misconfiguration d f).2) := by
  cases f with
  | obj m =>
    by_cases hg : (truthy ((lookup m "path").getD .null)
        && truthy ((lookup m "suggested_value").getD .null)) = true
    · have hg2 := hg
      rw [Bool.and_eq_true] at hg2
      obtain ⟨htp, htv⟩ := hg2
      cases hpv : (lookup m "path").getD .null with
      | str p =>
        rw [hpv] at htp
        have hun : ∀ c : Value, remediate_misconfiguration c (.obj m)
            = walk ((lookup m "suggested_value").getD .null) c (pySplitDot p) := by
          intro c
          simp [remediate_misconfiguration, hpv, htp, htv]
        rcases ho : walk ((lookup m "suggested_value").getD .null) d (pySplitDot p)
          with ⟨d1, o1⟩
        cases o1 with
        | applied old nv =>
          obtain ⟨hnv, hres, hset⟩ := walk_applied _ _ _ _ _ _ ho
          subst hnv
          have hres1 : lookupPath d1 (pySplitDot p)
              = some ((lookup m "suggested_value").getD .null) := by
            rw [hset]
            exact lookupPath_setPath _ _ _ _ (pySplitDot_ne_nil p) hres
          have h2 := walk_of_resolves ((lookup m "suggested_value").getD .null)
            (pySplitDot p) d1 _ (pySplitDot_ne_nil p) hres1
          have hset2 : setPath d1 (pySplitDot p) ((lookup m "suggested_value").getD .null)
              = d1 := by
            rw [hset, setPath_setPath]
          rw [hun d, ho, hun d1, h2, hset2]
          simp [secondPass]
        | skippedMissingFields =>
          have hd1 : d1 = d := by
            have h5 := walk_not_applied ((lookup m "suggested_value").getD .null)
              (pySplitDot p) d (by rw [ho] ; simp [isApplied])
            rw [ho] at h5
            exact h5
          rw [hun d, ho, hun d1, hd1, ho]
          simp [secondPass, hd1]
        | skippedPathNotFound =>
          have hd1 : d1 = d := by
            have h5 := walk_not_applied ((lookup m "suggested_value").getD .null)
              (pySplitDot p) d (by rw [ho] ; simp [isApplied])
            rw [ho] at h5
            exact h5
          rw [hun d, ho, hun d1, hd1, ho]
          simp [secondPass, hd1]
        | errorCaught =>
          have hd1 : d1 = d := by
            have h5 := walk_not_applied ((lookup m "suggested_value").getD .null)
              (pySplitDot p) d (by rw [ho] ; simp [isApplied])
            rw [ho] at h5
            exact h5
          rw [hun d, ho, hun d1, hd1, ho]
          simp [secondPass, hd1]
      | null =>
        rw [hpv] at htp
        simp [truthy] at htp
      | bool b =>
        rw [hpv] at htp
        simp [remediate_misconfiguration, hpv, htp, htv, secondPass]
      | num n =>
        rw [hpv] at htp
        simp [remediate_misconfiguration, hpv, htp, htv, secondPass]
      | arr xs =>
        rw [hpv] at htp
        simp [remediate_misconfiguration, hpv, htp, htv, secondPass]
      | obj kvs =>
        rw [hpv] at htp
        simp [remediate_misconfiguration, hpv, htp, htv, secondPass]
    · simp [remediate_misconfiguration, hg, secondPass]
  | null => simp [remediate_misconfiguration, secondPass]
  | bool b => simp [remediate_misconfiguration, secondPass]
  | num n => simp [remediate_misconfiguration, secondPass]
  | str s => simp [remediate_misconfiguration, secondPass]
  | arr xs => simp [remediate_misconfiguration, secondPass]

/-- A traversal that hits a mapping-shaped resolution failure (the
segment absent from the mapping reached at that point) skips the
finding with the path-not-found outcome and an unchanged document. -/
theorem walk_of_missing (sv : Value) (parts : List String) (cur : Value)
    (h : pathMissing cur parts = true) :
    walk sv cur parts = (cur, .skippedPathNotFound) := by
  induction parts generalizing cur with
  | nil => simp [pathMissing] at h
  | cons seg rest ih =>
    cases rest with
    | nil =>
      cases cur with
      | obj kvs =>
        cases hlk : lookup kvs seg with
        | some w => simp [pathMissing, hlk] at h
        | none => simp [walk, hlk]
      | str s => simp [pathMissing] at h
      | arr xs => simp [pathMissing] at h
      | null => simp [pathMissing] at h
      | bool b => simp [pathMissing] at h
      | num n => simp [pathMissing] at h
    | cons r1 rs =>
      cases cur with
      | obj kvs =>
        cases hlk : lookup kvs seg with
        | some next =>
          simp only [pathMissing, hlk] at h
          simp [walk, hlk, ih next h, setKey_lookup_eq kvs seg next hlk]
        | none => simp [walk, hlk]
      | str s => simp [pathMissing] at h
      | arr xs => simp [pathMissing] at h
      | null => simp [pathMissing] at h
      | bool b => simp [pathMissing] at h
      | num n => simp [pathMissing] at h

/-- C1: the claim says a finding with `suggested_value` `[]` and path
`network.firewall.rules` against a document with no `network` key is
skipped with the path-not-found outcome, missing-fields being
produced only when `path` or `suggested_value` is absent.  The code
instead takes the missing-fields branch before ever attempting
resolution, because the guard at src/main.py line 95 tests Python
truthiness and `not []` is true; its warning claims the field is
missing even though it is present.  This theorem evaluates the code
at the spec's own scenario: the outcome is `skippedMissingFields`,
not the claimed `skippedPathNotFound`. -/
theorem c1_falsy_value_hits_missing_fields :
    remediate_misconfiguration (.obj [])
        (.obj [("path", .str "network.firewall.rules"), ("suggested_value", .arr [])])
      = (.obj [], .skippedMissingFields) := rfl

/-- C2 counterexample: for document `{"a": {"b": 1}}` and the finding
list that first sets `a.b` to 9 and then sets `a` to the scalar 7,
the first pass applies both findings, but in the second pass the
first finding is no longer applied at all: its final segment test
`"b" in 7` raises TypeError, caught as the error outcome.  So it is
false that every outcome applied in the first pass is an `Applied`
no-op in the second pass. -/
theorem c2_counterexample :
    (remediateAll c2Doc c2Findings).2
        = [.applied (.num 1) (.num 9), .applied (.obj [("b", .num 9)]) (.num 7)]
    ∧ (remediateAll (remediateAll c2Doc c2Findings).1 c2Findings).2
        = [.errorCaught, .applied (.num 7) (.num 7)] :=
  ⟨rfl, rfl⟩

/-- C2 (amended): idempotence holds per finding: re-applying a
one-finding list to the document produced by the first application
returns a structurally equal document, and the outcome list is the
first pass's outcome list with each `Applied(old, v)` turned into the
no-op `Applied(v, v)` and every other outcome unchanged.  For
multi-finding lists the original claim fails (see the
counterexample): a finding that overwrites a container traversed by
another finding's path can turn that finding's second-pass outcome
into a caught error. -/
theorem c2_single_finding_idempotent (d f : Value) :
    remediateAll (remediateAll d [f]).1 [f]
      = ((remediateAll d [f]).1, (remediateAll d [f]).2.map secondPass) := by
  simp [remediateAll, remediate_idem d f]

/-- C3 counterexample: in document `{"a": "xy"}` with finding path
`a.x.z`, the intermediate segment `x` resolves against the string
node `"xy"`: Python's `"x" in "xy"` is a substring test and succeeds,
so the code then evaluates `current["x"]`, raising TypeError, which
the catch-all converts into the error outcome — not the
path-not-found outcome the claim requires (the document is unchanged
either way). -/
theorem c3_counterexample :
    remediate_misconfiguration (.obj [("a", .str "xy")])
        (.obj [("path", .str "a.x.z"), ("suggested_value", .num 1)])
      = (.obj [("a", .str "xy")], .errorCaught) := rfl

/-- C3 (amended): when an intermediate path segment meets a
non-mapping node, the node is always left unchanged, but resolution
is identical to the key-not-found case only when the Python
membership test cleanly fails: a string node that does not contain
the segment as a substring, or a sequence that does not contain it as
an element, gives the path-not-found skip; a string containing the
segment, a sequence containing it, and every other scalar
(number, boolean, null) give the caught-error outcome instead.
Additionally, whenever the traversal applies no assignment the whole
document is returned unchanged. -/
theorem c3_nonmapping_intermediate (sv v : Value) (seg s2 : String)
    (rest : List String) (d : Value) (parts : List String) :
    (Value.isObj v = false → walk sv v (seg :: s2 :: rest)
        = (v, match v with
              | .str s => if pyInStr seg s then .errorCaught else .skippedPathNotFound
              | .arr xs => if pyInList seg xs then .errorCaught else .skippedPathNotFound
              | _ => .errorCaught))
    ∧ (isApplied (walk sv d parts).2 = false → (walk sv d parts).1 = d) := by
  constructor
  · intro hno
    cases v with
    | obj kvs => simp [Value.isObj] at hno
    | str s => cases hp : pyInStr seg s <;> simp [walk, hp]
    | arr xs => cases hp : pyInList seg xs <;> simp [walk, hp]
    | null => simp [walk]
    | bool b => simp [walk]
    | num n => simp [walk]
  · exact walk_not_applied sv parts d

/-- C3 witness: the string intermediate `"xy"` with next segment `x`
(a substring) yields the caught-error outcome with the node
unchanged. -/
theorem c3_nonmapping_intermediate_witness :
    walk (.num 1) (.str "xy") ["x", "z"] = (.str "xy", .errorCaught) :=
  (c3_nonmapping_intermediate (.num 1) (.str "xy") "x" "z" [] (.num 0) []).1 rfl

/-- C4: failure isolation and totality of the loop: the engine
returns exactly one outcome per input finding, in input order, and
processing a finding list continues past any prefix regardless of the
outcomes in it — the remaining findings are processed on the document
the prefix produced, and the outcome lists concatenate. -/
theorem c4_outcome_per_finding (d : Value) (fs gs : List Value) :
    (remediateAll d fs).2.length = fs.length
    ∧ remediateAll d (fs ++ gs)
        = ((remediateAll (remediateAll d fs).1 gs).1,
           (remediateAll d fs).2 ++ (remediateAll (remediateAll d fs).1 gs).2) := by
  constructor
  · induction fs generalizing d with
    | nil => simp [remediateAll]
    | cons f t ih => simp [remediateAll, ih]
  · induction fs generalizing d with
    | nil => simp [remediateAll]
    | cons f t ih => simp [remediateAll, ih]

/-- C5 counterexample: the path `a` of the finding
`{"path": "a", "suggested_value": 0}` fully resolves in `{"a": 1}`
to the existing leaf 1, yet the code does not apply the finding:
0 is falsy, so the line-95 guard skips it as missing fields, against
the claim's demand of `Applied(1, 0)`. -/
theorem c5_counterexample :
    lookupPath aOneDoc (pySplitDot "a") = some (.num 1)
    ∧ remediate_misconfiguration aOneDoc
        (.obj [("path", .str "a"), ("suggested_value", .num 0)])
      = (aOneDoc, .skippedMissingFields) :=
  ⟨rfl, rfl⟩

/-- C5 (amended): for every finding carrying a truthy string `path`
and a truthy `suggested_value` whose dotted path fully resolves
through mappings to an existing leaf, the code overwrites that leaf
with the suggested value and reports `Applied(old, suggested_value)`;
the resulting document is the single-leaf assignment and the leaf now
resolves to the suggested value.  The truthiness proviso is forced by
the counterexample: a falsy suggested value (0, false, "", []) is
skipped as missing fields even though its path resolves. -/
theorem c5_resolved_leaf_applied (d : Value) (m : List (String × Value)) (p : String)
    (sv old : Value)
    (hp : lookup m "path" = some (.str p))
    (hsv : lookup m "suggested_value" = some sv)
    (htp : truthy (.str p) = true)
    (htv : truthy sv = true)
    (hres : lookupPath d (pySplitDot p) = some old) :
    remediate_misconfiguration d (.obj m)
        = (setPath d (pySplitDot p) sv, .applied old sv)
    ∧ lookupPath (setPath d (pySplitDot p) sv) (pySplitDot p) = some sv := by
  constructor
  · have hr : remediate_misconfiguration d (.obj m) = walk sv d (pySplitDot p) := by
      simp [remediate_misconfiguration, hp, hsv, htp, htv]
    rw [hr]
    exact walk_of_resolves sv (pySplitDot p) d old (pySplitDot_ne_nil p) hres
  · exact lookupPath_setPath sv (pySplitDot p) d old (pySplitDot_ne_nil p) hres

/-- C5 witness: the spec's concrete scenario: applying
`{"path": "security.password_policy.minimum_length",
"suggested_value": 12}` to
`{"security": {"password_policy": {"minimum_length": 4}}}` yields
`{"security": {"password_policy": {"minimum_length": 12}}}` with
outcome `Applied(4, 12)`. -/
theorem c5_resolved_leaf_applied_witness :
    remediate_misconfiguration secDoc minLenFinding
        = (secDoc12, .applied (.num 4) (.num 12))
    ∧ lookupPath secDoc12
        (pySplitDot "security.password_policy.minimum_length") = some (.num 12) :=
  c5_resolved_leaf_applied secDoc
    [("path", .str "security.password_policy.minimum_length"), ("suggested_value", .num 12)]
    "security.password_policy.minimum_length" (.num 12) (.num 4) rfl rfl rfl rfl rfl

/-- C6 counterexample: the finding
`{"path": "nope.x", "suggested_value": 0}` has a path that does not
resolve in the empty document, yet its outcome is
`skippedMissingFields`, not the claimed `skippedPathNotFound`: the
falsy suggested value is skipped by the line-95 guard before the path
is ever examined. -/
theorem c6_counterexample :
    pathMissing (.obj []) (pySplitDot "nope.x") = true
    ∧ remediate_misconfiguration (.obj [])
        (.obj [("path", .str "nope.x"), ("suggested_value", .num 0)])
      = (.obj [], .skippedMissingFields) :=
  ⟨rfl, rfl⟩

/-- C6 (amended): for every finding carrying a truthy string `path`
and a truthy `suggested_value`, if the dotted path hits a
mapping-shaped resolution failure (an intermediate segment absent
from the mapping reached at that point, or the final key absent from
the final mapping), the document is returned structurally unchanged
and the outcome is `skippedPathNotFound`.  The truthiness proviso is
forced by the counterexample: with a falsy suggested value the
missing-fields skip fires first. -/
theorem c6_missing_path_skipped (d : Value) (m : List (String × Value)) (p : String)
    (sv : Value)
    (hp : lookup m "path" = some (.str p))
    (hsv : lookup m "suggested_value" = some sv)
    (htp : truthy (.str p) = true)
    (htv : truthy sv = true)
    (hmiss : pathMissing d (pySplitDot p) = true) :
    remediate_misconfiguration d (.obj m) = (d, .skippedPathNotFound) := by
  have hr : remediate_misconfiguration d (.obj m) = walk sv d (pySplitDot p) := by
    simp [remediate_misconfiguration, hp, hsv, htp, htv]
  rw [hr]
  exact walk_of_missing sv (pySplitDot p) d hmiss

/-- C6 witness: the spec's missing-leaf scenario: the finding at path
`security.password_policy.max_age` with value 90 leaves the document
unchanged with outcome `SkippedPathNotFound`. -/
theorem c6_missing_path_skipped_witness :
    remediate_misconfiguration secDoc maxAgeFinding = (secDoc, .skippedPathNotFound) :=
  c6_missing_path_skipped secDoc
    [("path", .str "security.password_policy.max_age"), ("suggested_value", .num 90)]
    "security.password_policy.max_age" (.num 90) rfl rfl rfl rfl rfl

/-- C7: `load_config` tries YAML first: whenever the YAML parser
accepts the text (including text that is also valid JSON), the result
is that document tagged YAML; a JSON-tagged result can only arise
after a YAML failure, and the run fails with the unsupported-format
error exactly when both parsers reject the text. -/
theorem c7_load_order (yamlParse jsonParse : String → Option Value) (t : String) :
    (∀ v, yamlParse t = some v → load_config yamlParse jsonParse t = .ok (v, .yaml))
    ∧ (∀ v, load_config yamlParse jsonParse t = .ok (v, .json)
        → yamlParse t = none ∧ jsonParse t = some v)
    ∧ (load_config yamlParse jsonParse t = .error .unsupportedFormat
        ↔ yamlParse t = none ∧ jsonParse t = none) := by
  refine ⟨fun v hv => by simp [load_config, hv], fun v hl => ?_, ?_⟩
  · cases hy : yamlParse t with
    | some w => simp [load_config, hy] at hl
    | none =>
      cases hj : jsonParse t with
      | some w =>
        simp [load_config, hy, hj] at hl
        simp [hl]
      | none => simp [load_config, hy, hj] at hl
  · cases hy : yamlParse t with
    | some w => simp [load_config, hy]
    | none =>
      cases hj : jsonParse t with
      | some w => simp [load_config, hy, hj]
      | none => simp [load_config, hy, hj]

/-- C7 witness: with a parser pair whose YAML side accepts, the load
is YAML-tagged. -/
theorem c7_load_order_witness :
    load_config (fun _ => some (.num 1)) (fun _ => none) "x" = .ok (.num 1, .yaml) :=
  (c7_load_order (fun _ => some (.num 1)) (fun _ => none) "x").1 (.num 1) rfl

/-- C8: applying an empty finding list is a no-op and not an error:
the document is returned unchanged and the outcome list is empty. -/
theorem c8_empty_findings_noop (d : Value) : remediateAll d [] = (d, []) := rfl

/-- C9: totality and per-finding atomicity of
`remediate_misconfiguration`: the embedding is a total function (every
exception path of the source is caught by its enclosing `except` and
returned as an outcome), and for every document and finding value it
either returns the document completely unchanged (whenever no
assignment is applied) or performs exactly one leaf assignment: on an
applied outcome the finding is a mapping with a string path whose
resolution yielded the old value, and the new document is precisely
the single-leaf assignment of the suggested value at that path. -/
theorem c9_total_atomic (d f : Value) :
    ((∀ old sv, (remediate_misconfiguration d f).2 ≠ .applied old sv)
        → (remediate_misconfiguration d f).1 = d)
    ∧ (∀ old sv, (remediate_misconfiguration d f).2 = .applied old sv
        → ∃ p, vget f "path" = some (.str p)
            ∧ vget f "suggested_value" = some sv
            ∧ lookupPath d (pySplitDot p) = some old
            ∧ (remediate_misconfiguration d f).1 = setPath d (pySplitDot p) sv) := by
  cases f with
  | obj m =>
    by_cases hg : (truthy ((lookup m "path").getD .null)
        && truthy ((lookup m "suggested_value").getD .null)) = true
    · have hg2 := hg
      rw [Bool.and_eq_true] at hg2
      obtain ⟨htp, htv⟩ := hg2
      cases hpv : (lookup m "path").getD .null with
      | str p =>
        rw [hpv] at htp
        have hr : remediate_misconfiguration d (.obj m)
            = walk ((lookup m "suggested_value").getD .null) d (pySplitDot p) := by
          simp [remediate_misconfiguration, hpv, htp, htv]
        constructor
        · intro hnap
          rw [hr]
          apply walk_not_applied
          cases ho : (walk ((lookup m "suggested_value").getD .null) d (pySplitDot p)).2 with
          | applied old nv => exact absurd (by rw [hr, ho]) (hnap old nv)
          | skippedMissingFields => simp [isApplied]
          | skippedPathNotFound => simp [isApplied]
          | errorCaught => simp [isApplied]
        · intro old sv happ
          rw [hr] at happ
          rcases how : walk ((lookup m "suggested_value").getD .null) d (pySplitDot p)
            with ⟨d1, o1⟩
          rw [how] at happ
          simp at happ
          subst happ
          obtain ⟨hnv, hres, hset⟩ :=
            walk_applied ((lookup m "suggested_value").getD .null) (pySplitDot p) d d1
              old sv how
          refine ⟨p, ?_, ?_, hres, ?_⟩
          · cases hlp : lookup m "path" with
            | some w => rw [hlp] at hpv ; simp at hpv ; simp [vget, hlp, hpv]
            | none => rw [hlp] at hpv ; simp at hpv
          · cases hls : lookup m "suggested_value" with
            | some w =>
              rw [hls] at hnv
              simp at hnv
              simp [vget, hls, hnv]
            | none =>
              rw [hls] at htv
              simp [truthy] at htv
          · rw [hr, how]
            show d1 = setPath d (pySplitDot p) sv
            rw [hnv]
            exact hset
      | null =>
        rw [hpv] at htp
        simp [truthy] at htp
      | bool b =>
        rw [hpv] at htp
        have hr : remediate_misconfiguration d (.obj m) = (d, .errorCaught) := by
          simp [remediate_misconfiguration, hpv, htp, htv]
        rw [hr]
        exact ⟨fun _ => rfl, fun old sv h => by simp at h⟩
      | num n =>
        rw [hpv] at htp
        have hr : remediate_misconfiguration d (.obj m) = (d, .errorCaught) := by
          simp [remediate_misconfiguration, hpv, htp, htv]
        rw [hr]
        exact ⟨fun _ => rfl, fun old sv h => by simp at h⟩
      | arr xs =>
        rw [hpv] at htp
        have hr : remediate_misconfiguration d (.obj m) = (d, .errorCaught) := by
          simp [remediate_misconfiguration, hpv, htp, htv]
        rw [hr]
        exact ⟨fun _ => rfl, fun old sv h => by simp at h⟩
      | obj kvs =>
        rw [hpv] at htp
        have hr : remediate_misconfiguration d (.obj m) = (d, .errorCaught) := by
          simp [remediate_misconfiguration, hpv, htp, htv]
        rw [hr]
        exact ⟨fun _ => rfl, fun old sv h => by simp at h⟩
    · have hr : remediate_misconfiguration d (.obj m) = (d, .skippedMissingFields) := by
        simp [remediate_misconfiguration, hg]
      rw [hr]
      exact ⟨fun _ => rfl, fun old sv h => by simp at h⟩
  | null => exact ⟨fun _ => rfl, fun old sv h => by simp [remediate_misconfiguration] at h⟩
  | bool b => exact ⟨fun _ => rfl, fun old sv h => by simp [remediate_misconfiguration] at h⟩
  | num n => exact ⟨fun _ => rfl, fun old sv h => by simp [remediate_misconfiguration] at h⟩
  | str s => exact ⟨fun _ => rfl, fun old sv h => by simp [remediate_misconfiguration] at h⟩
  | arr xs => exact ⟨fun _ => rfl, fun old sv h => by simp [remediate_misconfiguration] at h⟩

/-- C9 witness: the applied case at document `{"a": 1}` and finding
`{"path": "a", "suggested_value": 2}`. -/
theorem c9_total_atomic_witness :
    ∃ p, vget aTwoFinding "path" = some (.str p)
      ∧ vget aTwoFinding "suggested_value" = some (.num 2)
      ∧ lookupPath aOneDoc (pySplitDot p) = some (.num 1)
      ∧ (remediate_misconfiguration aOneDoc aTwoFinding).1
          = setPath aOneDoc (pySplitDot p) (.num 2) :=
  (c9_total_atomic aOneDoc aTwoFinding).2 (.num 1) (.num 2) rfl

/-- C10: frame property of a successful application: when the
finding's segment list resolves, the code rewrites the document to
exactly the single-leaf assignment `setPath`; the assigned path then
resolves to the suggested value, every path that neither extends nor
is an initial portion of the assigned path resolves exactly as
before, and every node strictly along the assigned path remains a
mapping with an unchanged key list — no key or container is created
anywhere. -/
theorem c10_frame (d : Value) (seg : String) (rest : List String) (sv old : Value)
    (h : lookupPath d (seg :: rest) = some old) :
    (walk sv d (seg :: rest)).1 = setPath d (seg :: rest) sv
    ∧ lookupPath (setPath d (seg :: rest) sv) (seg :: rest) = some sv
    ∧ (∀ q, isPre (seg :: rest) q = false → isPre q (seg :: rest) = false →
        lookupPath (setPath d (seg :: rest) sv) q = lookupPath d q)
    ∧ (∀ q, isPre q (seg :: rest) = true → q ≠ seg :: rest →
        ∃ kvs kvs2, lookupPath d q = some (.obj kvs)
          ∧ lookupPath (setPath d (seg :: rest) sv) q = some (.obj kvs2)
          ∧ kvs2.map Prod.fst = kvs.map Prod.fst) := by
  refine ⟨?_, lookupPath_setPath sv (seg :: rest) d old (by simp) h,
    fun q h1 h2 => setPath_frame (seg :: rest) q d sv h1 h2,
    fun q h1 h2 => setPath_keys q (seg :: rest) d sv old h h1 h2⟩
  rw [walk_of_resolves sv (seg :: rest) d old (by simp) h]

/-- C10 witness: assigning 9 at path `a.b` of
`{"a": {"b": 1}, "c": 2}`: the leaf now reads 9 and the sibling path
`c` is untouched. -/
theorem c10_frame_witness :
    lookupPath (setPath frameDoc ["a", "b"] (.num 9)) ["a", "b"] = some (.num 9)
    ∧ lookupPath (setPath frameDoc ["a", "b"] (.num 9)) ["c"] = lookupPath frameDoc ["c"] :=
  ⟨(c10_frame frameDoc "a" ["b"] (.num 9) (.num 1) rfl).2.1,
   (c10_frame frameDoc "a" ["b"] (.num 9) (.num 1) rfl).2.2.1 ["c"] rfl rfl⟩

end Remed
